import Mathlib

/-!
# Verification of the download-and-convert pipeline

Shallow embedding of the audio-download server action
(`src/app/download-audio.action.ts`, final revision) together with proofs of
the behavioural properties stated in the specification.

Strings are modelled as `List Char`.  The external collaborators (the media
resolver `ytdl`, the transcoder `ffmpeg`, the file system and the abort
signal) are modelled as oracles supplied through environment records; the
control flow of the repository's own functions is translated statement by
statement.
-/

namespace Studio

/-! ## Filename sanitizer

Embedding of `sanitizeFilename` (download-audio.action.ts, lines 555-567):

```js
let saneName = name.replace(/[^a-z0-9_.\-\s]/gi, '_').replace(/\s+/g, ' ');
if (saneName.length > 100) { saneName = saneName.substring(0, 100).trim(); }
if (saneName.endsWith('.')) {
    saneName = saneName.substring(0, saneName.length - 1) + '_';
}
if (!saneName || saneName === '.mp3' || saneName === '.zip') {
  saneName = `downloaded_file${saneName}`;
}
return saneName;
```
-/

/-- JavaScript `\s` character class (WhiteSpace ∪ LineTerminator):
tab, LF, VT, FF, CR, space, NBSP, Ogham space, U+2000-U+200A, LS, PS,
narrow NBSP, medium mathematical space, ideographic space, BOM. -/
def isJsWs (c : Char) : Bool :=
  decide (c.toNat = 9) || decide (c.toNat = 10) || decide (c.toNat = 11) ||
  decide (c.toNat = 12) || decide (c.toNat = 13) || decide (c.toNat = 32) ||
  decide (c.toNat = 160) || decide (c.toNat = 5760) ||
  (decide (8192 ≤ c.toNat) && decide (c.toNat ≤ 8202)) ||
  decide (c.toNat = 8232) || decide (c.toNat = 8233) ||
  decide (c.toNat = 8239) || decide (c.toNat = 8287) ||
  decide (c.toNat = 12288) || decide (c.toNat = 65279)

/-- ASCII alphanumeric (`[a-z0-9]` with the `i` flag; without the `u` flag a
non-ASCII character never canonicalises into `[a-z]`, so the class is exactly
ASCII letters and digits). -/
def isAsciiAlnum (c : Char) : Bool :=
  (decide (48 ≤ c.toNat) && decide (c.toNat ≤ 57)) ||
  (decide (65 ≤ c.toNat) && decide (c.toNat ≤ 90)) ||
  (decide (97 ≤ c.toNat) && decide (c.toNat ≤ 122))

/-- The character class `[a-z0-9_.\-\s]` (case-insensitive): characters kept
by the first `replace` of `sanitizeFilename`; anything else becomes `_`. -/
def isKeptClass (c : Char) : Bool :=
  isAsciiAlnum c || decide (c.toNat = 95) || decide (c.toNat = 46) ||
  decide (c.toNat = 45) || isJsWs c

/-- `name.replace(/[^a-z0-9_.\-\s]/gi, '_')` — the class is a single-character
class, so the global replace acts pointwise. -/
def replaceBad (s : List Char) : List Char :=
  s.map (fun c => if isKeptClass c then c else '_')

/-- `.replace(/\s+/g, ' ')`: every maximal run of `\s` characters becomes one
space. -/
def collapseWs : List Char → List Char
  | [] => []
  | [c] => [if isJsWs c then ' ' else c]
  | c :: d :: rest =>
    if isJsWs c && isJsWs d then collapseWs (d :: rest)
    else (if isJsWs c then ' ' else c) :: collapseWs (d :: rest)

/-- Removal of trailing JS whitespace (the right half of
`String.prototype.trim`). -/
def rtrimWs : List Char → List Char
  | [] => []
  | c :: rest =>
    let r := rtrimWs rest
    if r.isEmpty && isJsWs c then [] else c :: r

/-- `String.prototype.trim`: strip leading and trailing JS whitespace. -/
def jsTrim (s : List Char) : List Char :=
  rtrimWs (s.dropWhile isJsWs)

/-- `if (saneName.length > 100) saneName = saneName.substring(0, 100).trim();` -/
def truncateStep (s : List Char) : List Char :=
  if 100 < s.length then jsTrim (s.take 100) else s

/-- `if (saneName.endsWith('.')) saneName = saneName.substring(0, length-1) + '_';` -/
def dotStep (s : List Char) : List Char :=
  if s.getLast? = some '.' then s.dropLast ++ ['_'] else s

/-- `if (!saneName || saneName === '.mp3' || saneName === '.zip')
      saneName = `downloaded_file${saneName}`;` -/
def fallbackStep (s : List Char) : List Char :=
  if s = [] ∨ s = (".mp3".toList) ∨ s = (".zip".toList) then
    ("downloaded_file".toList) ++ s
  else s

/-- The sanitizer `sanitizeFilename` from download-audio.action.ts. -/
def sanitizeFilename (name : List Char) : List Char :=
  fallbackStep (dotStep (truncateStep (collapseWs (replaceBad name))))

/-- The output alphabet claimed safe by the spec: `[A-Za-z0-9_.\- ]`. -/
def allowedOut (c : Char) : Bool :=
  isAsciiAlnum c || decide (c.toNat = 95) || decide (c.toNat = 46) ||
  decide (c.toNat = 45) || decide (c.toNat = 32)

/-- No two adjacent characters of the list are both JS whitespace. -/
def noAdjWs : List Char → Bool
  | [] => true
  | [_] => true
  | c :: d :: rest => !(isJsWs c && isJsWs d) && noAdjWs (d :: rest)

/-- Invariant satisfied by every `sanitizeFilename` output (and exactly the
inputs on which the sanitizer is the identity): safe alphabet, no whitespace
runs, length at most 100, no trailing dot, and not one of the fallback
triggers. -/
def GoodName (s : List Char) : Bool :=
  s.all allowedOut && noAdjWs s && decide (s.length ≤ 100) &&
  !(decide (s.getLast? = some '.')) && !(decide (s = [])) &&
  !(decide (s = (".mp3".toList))) && !(decide (s = (".zip".toList)))

/-! ## Data model for the download action

The remaining definitions embed `downloadAudioAction` (lines 797-997) and
`downloadAndConvertToMp3` (lines 625-794) of download-audio.action.ts.
External collaborators (`ytdl`, `ffmpeg`, the file system, `Date.now`, and
the client's `AbortSignal`) are modelled as oracles in environment records;
the repository's own control flow is translated branch by branch. -/

/-- One playlist entry as passed by the caller: `{url, title}`. -/
structure MediaItem where
  url : List Char
  title : List Char
deriving DecidableEq

/-- A JavaScript `Error`, as far as the action inspects it: its `name` and
its `message`. -/
structure JsError where
  name : List Char
  message : List Char
deriving DecidableEq

/-- Does `s` start with `pat`? (helper for `String.prototype.includes`). -/
def startsWithL : List Char → List Char → Bool
  | [], _ => true
  | _ :: _, [] => false
  | p :: ps, c :: cs => (p == c) && startsWithL ps cs

/-- `s.includes(pat)` on lists of characters. -/
def containsSub (pat : List Char) : List Char → Bool
  | [] => pat.isEmpty
  | c :: rest => startsWithL pat (c :: rest) || containsSub pat rest

/-- `String.prototype.toLowerCase` (ASCII; the messages the action builds
are ASCII). -/
def toLowerL (s : List Char) : List Char := s.map Char.toLower

/-- `msg.toLowerCase().includes('cancel')`. -/
def containsCancel (msg : List Char) : Bool := containsSub (("cancel").toList) (toLowerL msg)

/-- `msg.toLowerCase().includes('abort')`. -/
def containsAbort (msg : List Char) : Bool := containsSub (("abort").toList) (toLowerL msg)

/-- Result of processing one playlist item — the outcome that
`downloadAndConvertToMp3` followed by `fsp.readFile` would deliver for that
item: either the mp3 bytes, or the thrown error. -/
inductive ItemOutcome where
  | success (data : List Nat)
  | failure (err : JsError)
deriving DecidableEq

/-- Content of one archive entry.  `itemIdx` is a ghost annotation recording
which playlist item produced the entry (the bytes/message are the data the
code stores). -/
inductive ZipContent where
  | audio (itemIdx : Nat) (data : List Nat)
  | errMark (itemIdx : Nat) (message : List Char)
  | cancelMark (itemIdx : Nat)
deriving DecidableEq

/-- The originating item index of an archive entry (ghost projection). -/
def ZipContent.idx : ZipContent → Nat
  | .audio i _ => i
  | .errMark i _ => i
  | .cancelMark i => i

/-- A JSZip archive: an ordered list of name/content pairs keyed by name. -/
abbrev Zip := List (List Char × ZipContent)

/-- `zip.file(name, content)`: JSZip keys files by name — adding an existing
name overwrites that entry in place, a new name is appended at the end. -/
def zipFile (z : Zip) (name : List Char) (content : ZipContent) : Zip :=
  if z.any (fun e => e.1 == name) then
    z.map (fun e => if e.1 == name then (name, content) else e)
  else z ++ [(name, content)]

/-- `${sanitizeFilename(item.title)}.mp3` — name of a succeeded entry. -/
def audioName (title : List Char) : List Char :=
  sanitizeFilename title ++ ((".mp3").toList)

/-- `ERROR_${sanitizeFilename(item.title)}.txt` — name of a failure marker. -/
def errorName (title : List Char) : List Char :=
  (("ERROR_").toList) ++ sanitizeFilename title ++ ((".txt").toList)

/-- `CANCELLED_${sanitizeFilename(item.title)}.txt` — name of a cancellation
marker. -/
def cancelName (title : List Char) : List Char :=
  (("CANCELLED_").toList) ++ sanitizeFilename title ++ ((".txt").toList)

/-- Oracles for one batch run.  `outcome i` is the result item `i`'s
processing would deliver; `sig t` is the value of `clientSignal.aborted` at
the `t`-th poll of the playlist loop.  Poll `3*i` is the top-of-loop check
before item `i`, poll `3*i+1` the `clientSignal?.aborted` disjunct of the
cancellation classification in item `i`'s catch block, poll `3*i+2` the
re-throw check there, and poll `3*n` (for an `n`-item playlist) the check
after the loop, before zipping. -/
structure BatchEnv where
  outcome : Nat → ItemOutcome
  sig : Nat → Bool

/-- The one-way cancellation-token property: polls happen in increasing
index order and once a poll observes `aborted`, every later poll does. -/
def SigMono (sig : Nat → Bool) : Prop :=
  ∀ a b, a ≤ b → sig a = true → sig b = true

/-- Accumulated loop state: the archive under construction plus the ghost
list of the indices of items whose processing was started. -/
structure BatchState where
  entries : Zip
  started : List Nat
deriving DecidableEq

/-- How the playlist loop ends: normally (the zip is then generated), or by
throwing a cancellation error to the outer catch. -/
inductive BatchExit where
  | completed (st : BatchState)
  | cancelled (message : List Char) (st : BatchState)
deriving DecidableEq

/-- The playlist loop of `downloadAudioAction` (lines 815-846): for each
item, poll the signal and throw if aborted; process the item; on success
add `<sanitized-title>.mp3`; on a failure classified as a cancellation add a
`CANCELLED_` marker and re-throw if the signal is aborted; on any other
failure add an `ERROR_` marker and continue; after the loop poll once more
before zipping. -/
def runItems (env : BatchEnv) : List MediaItem → Nat → BatchState → BatchExit
  | [], i, st =>
    if env.sig (3 * i) then
      .cancelled (("Playlist processing cancelled by client before zipping.").toList) st
    else .completed st
  | item :: rest, i, st =>
    if env.sig (3 * i) then
      .cancelled (("Playlist processing cancelled by client during item iteration.").toList) st
    else
      match env.outcome i with
      | .success data =>
        runItems env rest (i + 1)
          ⟨zipFile st.entries (audioName item.title) (.audio i data), st.started ++ [i]⟩
      | .failure err =>
        if (err.name == (("AbortError").toList)) || containsCancel err.message
            || env.sig (3 * i + 1) then
          if env.sig (3 * i + 2) then
            .cancelled ((("Playlist processing cancelled by client: ").toList) ++ err.message)
              ⟨zipFile st.entries (cancelName item.title) (.cancelMark i), st.started ++ [i]⟩
          else
            runItems env rest (i + 1)
              ⟨zipFile st.entries (cancelName item.title) (.cancelMark i), st.started ++ [i]⟩
        else
          runItems env rest (i + 1)
            ⟨zipFile st.entries (errorName item.title) (.errMark i err.message), st.started ++ [i]⟩

/-! ### Entry counting for batch results -/

/-- Is this archive entry a succeeded (audio) entry? -/
def isAudioEntry (e : List Char × ZipContent) : Bool :=
  match e.2 with
  | .audio _ _ => true
  | _ => false

/-- Is this archive entry a failure (`ERROR_`) marker? -/
def isErrEntry (e : List Char × ZipContent) : Bool :=
  match e.2 with
  | .errMark _ _ => true
  | _ => false

/-- Number of succeeded entries in the archive. -/
def succeededCount (z : Zip) : Nat := (z.filter isAudioEntry).length

/-- Number of failure-marker entries in the archive. -/
def failedCount (z : Zip) : Nat := (z.filter isErrEntry).length

/-! ## Single-item pipeline: `downloadAndConvertToMp3` (lines 625-794)

The function resolves the video, refuses live content, chooses a combined
audio+video format (preferring an mp4 container), downloads it to a temp
file, transcodes it with ffmpeg to 192k mp3, deletes the intermediate video
unconditionally and returns the mp3 path.  The external calls and the abort
signal are oracles; the branch structure is the source's. -/

/-- The fields of a `ytdl` format the pipeline inspects. -/
structure FormatInfo where
  hasAudio : Bool
  hasVideo : Bool
  container : List Char
deriving DecidableEq

/-- The fields of `ytdl.getInfo`'s result the pipeline inspects
(`videoDetails.title`, `videoDetails.isLiveContent`, `formats`). -/
structure VideoInfo where
  title : List Char
  isLiveContent : Bool
  formats : List FormatInfo
deriving DecidableEq

/-- `ytdl.chooseFormat` is an external library call; the pipeline only
depends on whether some format passes the filter, so selection is modelled
as first match. -/
def chooseFormatFirst (p : FormatInfo → Bool) (formats : List FormatInfo) : Option FormatInfo :=
  (formats.filter p).head?

/-- The two-stage format selection of lines 650-665: prefer a combined
audio+video format in an mp4 container, fall back to any combined format. -/
def chooseCombinedFormat (formats : List FormatInfo) : Option FormatInfo :=
  match chooseFormatFirst
      (fun f => f.hasAudio && f.hasVideo && (f.container == (("mp4").toList))) formats with
  | some f => some f
  | none => chooseFormatFirst (fun f => f.hasAudio && f.hasVideo) formats

/-- External effects of one `downloadAndConvertToMp3` run, in order of
occurrence. -/
inductive ConvEffect where
  | getInfoCall
  | downloadStart
  | ffmpegStart
  | unlinkVideo
  | unlinkMp3
deriving DecidableEq

/-- Oracles for one `downloadAndConvertToMp3` run.  `sig t` is the value of
`operationSignal.aborted` at the function's own polls: 0 = the initial check
(line 635), 1 = the check in the getInfo catch, 2 = the checks during format
selection, 3 = the check after the download, 4 = the check in the conversion
catch, 5 = the post-conversion check.  `download` and `ffmpeg` are the
settlements of the download and conversion promises; `now` is the rendering
of `Date.now()` used in the temp file names. -/
structure ConvertEnv where
  sig : Nat → Bool
  getInfo : Except JsError VideoInfo
  download : Except JsError Unit
  ffmpeg : Except JsError Unit
  now : List Char

/-- `path.join(tempDir, `${videoTitle}_${Date.now()}.mp3`)`. -/
def mp3PathOf (tempDir title now : List Char) : List Char :=
  tempDir ++ (("/").toList) ++ sanitizeFilename title ++ (("_").toList) ++ now
    ++ ((".mp3").toList)

/-- `"${title}" is a live stream and cannot be processed.` -/
def liveStreamMsg (title : List Char) : List Char :=
  (("\"").toList) ++ title ++ (("\" is a live stream and cannot be processed.").toList)

/-- `No suitable video format found for "${title}".` -/
def noSuitableFormatMsg (title : List Char) : List Char :=
  (("No suitable video format found for \"").toList) ++ title ++ (("\".").toList)

/-- The single-item pipeline `downloadAndConvertToMp3`, returning the thrown
error or the mp3 path, together with the ordered list of external effects it
performed. -/
def downloadAndConvertToMp3 (env : ConvertEnv) (youtubeUrl title tempDir : List Char) :
    Except JsError (List Char) × List ConvEffect :=
  if env.sig 0 then
    (.error ⟨(("Error").toList),
      (("Download cancelled for \"").toList) ++ title
        ++ (("\" before starting download.").toList)⟩, [])
  else
    match env.getInfo with
    | .error infoError =>
      if env.sig 1 then
        (.error ⟨(("Error").toList),
          (("Download cancelled for \"").toList) ++ title
            ++ (("\" during getInfo.").toList)⟩, [.getInfoCall])
      else
        (.error ⟨(("Error").toList),
          (("Failed to get video info for \"").toList) ++ title ++ (("\": ").toList)
            ++ (if infoError.message = [] then (("Unknown ytdl.getInfo error").toList)
                else infoError.message)⟩, [.getInfoCall])
    | .ok info =>
      if info.isLiveContent then
        (.error ⟨(("Error").toList), liveStreamMsg title⟩, [.getInfoCall])
      else
        match chooseCombinedFormat info.formats with
        | none =>
          if env.sig 2 then
            (.error ⟨(("Error").toList),
              (("Download cancelled for \"").toList) ++ title
                ++ (("\" during format selection.").toList)⟩, [.getInfoCall])
          else
            (.error ⟨(("Error").toList), noSuitableFormatMsg title⟩, [.getInfoCall])
        | some _ =>
          match env.download with
          | .error e => (.error e, [.getInfoCall, .downloadStart])
          | .ok _ =>
            if env.sig 3 then
              (.error ⟨(("Error").toList),
                (("Download cancelled for \"").toList) ++ title
                  ++ (("\" after video download, before conversion.").toList)⟩,
               [.getInfoCall, .downloadStart])
            else
              match env.ffmpeg with
              | .error ffErr =>
                if env.sig 4 then
                  (.error ⟨(("Error").toList),
                    (("Download cancelled for \"").toList) ++ title
                      ++ (("\" during ffmpeg conversion (caught error).").toList)⟩,
                   [.getInfoCall, .downloadStart, .ffmpegStart, .unlinkVideo])
                else
                  (.error ⟨(("Error").toList),
                    (("FFmpeg processing failed for \"").toList) ++ title
                      ++ (("\": ").toList)
                      ++ (if ffErr.message = [] then (("Unknown FFmpeg error").toList)
                          else ffErr.message)⟩,
                   [.getInfoCall, .downloadStart, .ffmpegStart, .unlinkVideo])
              | .ok _ =>
                if env.sig 5 then
                  (.error ⟨(("Error").toList),
                    (("Download cancelled for \"").toList) ++ title
                      ++ (("\" post-ffmpeg processing.").toList)⟩,
                   [.getInfoCall, .downloadStart, .ffmpegStart, .unlinkVideo, .unlinkMp3])
                else
                  (.ok (mp3PathOf tempDir title env.now),
                   [.getInfoCall, .downloadStart, .ffmpegStart, .unlinkVideo])

/-! ## Top-level action: `downloadAudioAction` (lines 797-997) -/

/-- Hex digit (uppercase) for percent-encoding. -/
def hexDigitChar (n : Nat) : Char :=
  if n < 10 then Char.ofNat (48 + n) else Char.ofNat (55 + n)

/-- UTF-8 bytes of one character. -/
def utf8Bytes (c : Char) : List Nat :=
  let n := c.toNat
  if n < 128 then [n]
  else if n < 2048 then [192 + n / 64, 128 + n % 64]
  else if n < 65536 then [224 + n / 4096, 128 + (n / 64) % 64, 128 + n % 64]
  else [240 + n / 262144, 128 + (n / 4096) % 64, 128 + (n / 64) % 64, 128 + n % 64]

/-- The characters `encodeURIComponent` leaves unescaped:
`A-Z a-z 0-9 - _ . ! ~ * ' ( )`. -/
def isUriUnreserved (c : Char) : Bool :=
  isAsciiAlnum c || decide (c.toNat = 45) || decide (c.toNat = 95) ||
  decide (c.toNat = 46) || decide (c.toNat = 33) || decide (c.toNat = 126) ||
  decide (c.toNat = 42) || decide (c.toNat = 39) || decide (c.toNat = 40) ||
  decide (c.toNat = 41)

/-- `%HH` escape of one byte. -/
def percentByte (b : Nat) : List Char := ['%', hexDigitChar (b / 16), hexDigitChar (b % 16)]

/-- JavaScript `encodeURIComponent`. -/
def encodeURIComponent (s : List Char) : List Char :=
  (s.map (fun c =>
    if isUriUnreserved c then [c] else ((utf8Bytes c).map percentByte).flatten)).flatten

/-- The response headers the action sets. -/
structure ResponseHeaders where
  contentDisposition : List Char
  contentType : List Char
  contentLength : List Char
deriving DecidableEq

/-- Headers of the single-video response (lines 895-899):
`Content-Disposition: attachment; filename="<encodeURIComponent(sanitized
title + ".mp3")>"`, `Content-Type: audio/mpeg`,
`Content-Length: stats.size`. -/
def singleHeaders (title : List Char) (size : Nat) : ResponseHeaders where
  contentDisposition :=
    (("attachment; filename=\"").toList)
      ++ encodeURIComponent (sanitizeFilename title ++ ((".mp3").toList))
      ++ (("\"").toList)
  contentType := (("audio/mpeg").toList)
  contentLength := Nat.toDigits 10 size

/-- Headers of the playlist (zip) response (lines 850-853); note the zip
filename is not percent-encoded. -/
def zipHeaders (playlistName : List Char) (size : Nat) : ResponseHeaders where
  contentDisposition :=
    (("attachment; filename=\"").toList) ++ playlistName ++ ((".zip\"").toList)
  contentType := (("application/zip").toList)
  contentLength := Nat.toDigits 10 size

/-- The payload of a successful response. -/
inductive ResponseBody where
  | zipArchive (entries : Zip)
  | fileStream (mp3Path : List Char)
deriving DecidableEq

/-- What the action returns to the caller: a streamed `Response` or a
structured `{error}` object. -/
inductive ActionResult where
  | response (headers : ResponseHeaders) (body : ResponseBody)
  | errorResult (error : List Char)
deriving DecidableEq

/-- Resource effects of the top-level action, in order: `fsp.mkdtemp` (its
first statement, line 805) and the `finally` block's delayed recursive
`fsp.rm` of the temp directory (lines 993-997). -/
inductive ActionEffect where
  | mkdtemp
  | scheduleRemoveTempDir (delayMs : Nat)
deriving DecidableEq

/-- The action's arguments. -/
structure ActionArgs where
  youtubeUrl : List Char
  playlistItems : Option (List MediaItem)
  isPlaylist : Bool
  playlistTitle : Option (List Char)

/-- Oracles for one `downloadAudioAction` call: the batch oracles, the URL
validation result, the single-video `ytdl.getInfo` settlement, the two
`clientSignal.aborted` polls on the single path, the oracles of the inner
`downloadAndConvertToMp3`, `fsp.stat(mp3Path).size`, the generated zip
buffer's byte length, and the `mkdtemp` result. -/
structure ActionEnv where
  batch : BatchEnv
  validUrl : Bool
  getInfo : Except JsError VideoInfo
  sigGetInfo : Bool
  sigBeforeProcessing : Bool
  convert : ConvertEnv
  statSize : Nat
  zipSize : Nat
  tempDir : List Char

/-- `isPlaylist && playlistItems && playlistItems.length > 0` (line 811,
with JavaScript truthiness for the array). -/
def playlistGuard (args : ActionArgs) : Bool :=
  args.isPlaylist &&
    (match args.playlistItems with
     | some l => decide (0 < l.length)
     | none => false)

/-- `sanitizeFilename(playlistTitle || 'youtube_playlist')` — JavaScript
`||` also replaces an empty title. -/
def playlistNameOf (playlistTitle : Option (List Char)) : List Char :=
  sanitizeFilename
    (match playlistTitle with
     | some t => if t = [] then (("youtube_playlist").toList) else t
     | none => (("youtube_playlist").toList))

/-- The body of the action's `try` block: the playlist branch runs the
playlist loop and wraps the zip, the single branch validates the URL,
resolves, refuses live content, runs the single-item pipeline and wraps the
file stream.  A `.error` value is an exception propagating to the outer
catch. -/
def runBody (env : ActionEnv) (args : ActionArgs) : Except JsError ActionResult :=
  if playlistGuard args then
    match runItems env.batch (args.playlistItems.getD []) 0 ⟨[], []⟩ with
    | .cancelled msg _ => .error ⟨(("Error").toList), msg⟩
    | .completed st =>
      .ok (.response (zipHeaders (playlistNameOf args.playlistTitle) env.zipSize)
        (.zipArchive st.entries))
  else
    if env.validUrl = false then
      .ok (.errorResult (("Invalid YouTube URL provided for single video.").toList))
    else
      match env.getInfo with
      | .error e =>
        if env.sigGetInfo then
          .error ⟨(("Error").toList),
            (("Single video download cancelled during getInfo.").toList)⟩
        else
          .ok (.errorResult ((("Failed to get video info: ").toList)
            ++ (if e.message = [] then (("Unknown ytdl.getInfo error").toList)
                else e.message)))
      | .ok info =>
        if info.isLiveContent then
          .ok (.errorResult (("Downloading live streams is not currently supported.").toList))
        else
          if env.sigBeforeProcessing then
            .error ⟨(("Error").toList),
              (("Single video download cancelled by client before processing.").toList)⟩
          else
            match (downloadAndConvertToMp3 env.convert args.youtubeUrl info.title
                env.tempDir).1 with
            | .error e => .error e
            | .ok mp3Path =>
              .ok (.response (singleHeaders info.title env.statSize) (.fileStream mp3Path))

/-- The outer catch (lines 968-992): an error whose `name` is `AbortError`
or whose message contains `cancel` or `abort` is reported as an explicit
cancellation; anything else is returned as its message. -/
def catchHandler (e : JsError) : ActionResult :=
  if (e.name == (("AbortError").toList)) || containsCancel e.message
      || containsAbort e.message then
    .errorResult ((("Operation cancelled: ").toList)
      ++ (if e.message = [] then (("Operation cancelled.").toList) else e.message))
  else
    .errorResult e.message

/-- `downloadAudioAction`: `mkdtemp` runs first, the `try` body produces a
result or throws, the catch converts a thrown error to a structured error
result, and the `finally` block always schedules the delayed (5000 ms)
recursive removal of the temp directory. -/
def downloadAudioAction (env : ActionEnv) (args : ActionArgs) :
    ActionResult × List ActionEffect :=
  (match runBody env args with
   | .ok r => r
   | .error e => catchHandler e,
   [.mkdtemp, .scheduleRemoveTempDir 5000])

/-! ### The single-fire cleanup hook -/

/-- Events the passThrough stream can emit; `performCleanupOnce` is attached
to its `close` and `error` events (lines 962-963) — an `end` of the stream
and an explicit cancel both surface as `close`/`error` of the destroyed
stream. -/
inductive StreamEvent where
  | closeEv
  | errorEv
  | dataEv
deriving DecidableEq

/-- `performCleanupOnce` (lines 955-963): a `cleanedUp` flag guards the
cleanup body.  `runCleanupHook evs cleanedUp` counts how many times the
cleanup body actually runs while the events `evs` fire in order. -/
def runCleanupHook : List StreamEvent → Bool → Nat
  | [], _ => 0
  | e :: rest, cleanedUp =>
    match e with
    | .closeEv => if cleanedUp then runCleanupHook rest cleanedUp
                  else 1 + runCleanupHook rest true
    | .errorEv => if cleanedUp then runCleanupHook rest cleanedUp
                  else 1 + runCleanupHook rest true
    | .dataEv => runCleanupHook rest cleanedUp

/-! ### Fixture environments for closed instances -/

/-- Fixture: convert-stage oracles with no cancellation and all-successful
external calls on a resolvable, non-live video titled `Test Song`. -/
def fixtureConvertEnv : ConvertEnv :=
  ⟨fun _ => false,
   .ok ⟨(("Test Song").toList), false, [⟨true, true, (("mp4").toList)⟩]⟩,
   .ok (), .ok (), (("1").toList)⟩

/-- Fixture: action environment for a successful single-video run. -/
def fixtureEnvC5 : ActionEnv :=
  ⟨⟨fun _ => .success [], fun _ => false⟩, true,
   .ok ⟨(("Test Song").toList), false, [⟨true, true, (("mp4").toList)⟩]⟩,
   false, false, fixtureConvertEnv, 7, 0, (("/tmp/yt").toList)⟩

/-- Fixture: single-video arguments. -/
def fixtureArgsSingle : ActionArgs := ⟨(("https://y/v").toList), none, false, none⟩

/-- Fixture: action environment whose URL validation fails. -/
def fixtureEnvC9 : ActionEnv :=
  ⟨⟨fun _ => .success [], fun _ => false⟩, false,
   .ok ⟨[], false, []⟩, false, false, fixtureConvertEnv, 0, 0, []⟩

/-- Fixture: a call declaring a playlist but passing an empty item list. -/
def fixtureArgsEmptyPlaylist : ActionArgs := ⟨(("not-a-url").toList), some [], true, none⟩

/-! ## Theorems

Helper lemmas about the sanitizer steps come first, followed by the
sanitizer invariant, the loop step equations, and the claim theorems with
their closed instances. -/

theorem char_eq_of_toNat_eq {a b : Char} (h : a.toNat = b.toNat) : a = b := by
  have h2 := congrArg Char.ofNat h
  rwa [Char.ofNat_toNat, Char.ofNat_toNat] at h2

theorem allowedOut_kept {c : Char} (h : allowedOut c = true) : isKeptClass c = true := by
  simp only [allowedOut, isAsciiAlnum, isKeptClass, isJsWs, Bool.or_eq_true, Bool.and_eq_true,
    decide_eq_true_eq] at h ⊢
  omega

theorem kept_nonws_allowed {c : Char} (h : isKeptClass c = true) (hw : isJsWs c = false) :
    allowedOut c = true := by
  have hw' : ¬ (isJsWs c = true) := by simp [hw]
  simp only [isJsWs, Bool.or_eq_true, Bool.and_eq_true, decide_eq_true_eq, not_or] at hw'
  simp only [isKeptClass, isAsciiAlnum, isJsWs, allowedOut, Bool.or_eq_true, Bool.and_eq_true,
    decide_eq_true_eq] at h ⊢
  omega

theorem allowed_ws_space {c : Char} (h : allowedOut c = true) (hw : isJsWs c = true) : c = ' ' := by
  have h32 : c.toNat = 32 := by
    simp only [allowedOut, isAsciiAlnum, isJsWs, Bool.or_eq_true, Bool.and_eq_true,
      decide_eq_true_eq] at h hw
    omega
  exact char_eq_of_toNat_eq (by rw [h32]; decide)

theorem replaceBad_all_kept (s : List Char) : ∀ c ∈ replaceBad s, isKeptClass c = true := by
  intro x hx
  rw [replaceBad, List.mem_map] at hx
  obtain ⟨c, _, rfl⟩ := hx
  by_cases h : isKeptClass c = true
  · rw [if_pos h]; exact h
  · rw [if_neg h]; decide

theorem replaceBad_eq_self {s : List Char} (h : ∀ c ∈ s, allowedOut c = true) :
    replaceBad s = s := by
  induction s with
  | nil => rfl
  | cons c rest ih =>
    have hc : isKeptClass c = true := allowedOut_kept (h c (by simp))
    simp only [replaceBad, List.map_cons, if_pos hc]
    have := ih (fun x hx => h x (by simp [hx]))
    rw [replaceBad] at this
    rw [this]

theorem collapseWs_cons_nonws {d : Char} (rest : List Char) (h : isJsWs d = false) :
    collapseWs (d :: rest) = d :: collapseWs rest := by
  cases rest with
  | nil => simp [collapseWs, h]
  | cons e tail => simp [collapseWs, h]

theorem collapseWs_mem_shape :
    ∀ s : List Char, ∀ c ∈ collapseWs s, c = ' ' ∨ (isJsWs c = false ∧ c ∈ s) := by
  intro s
  induction s using collapseWs.induct with
  | case1 => simp [collapseWs]
  | case2 c =>
    intro x hx
    simp only [collapseWs, List.mem_singleton] at hx
    subst hx
    by_cases h : isJsWs c = true
    · left; rw [if_pos h]
    · right
      rw [if_neg h]
      exact ⟨by simpa using h, by simp⟩
  | case3 c d rest h ih =>
    intro x hx
    rw [collapseWs, if_pos h] at hx
    rcases ih x hx with h1 | ⟨h1, h2⟩
    · exact Or.inl h1
    · exact Or.inr ⟨h1, by simp [List.mem_cons] at h2 ⊢; tauto⟩
  | case4 c d rest h ih =>
    intro x hx
    rw [collapseWs, if_neg h] at hx
    rcases List.mem_cons.mp hx with h1 | h1
    · subst h1
      by_cases hc : isJsWs c = true
      · left; rw [if_pos hc]
      · right
        rw [if_neg hc]
        exact ⟨by simpa using hc, by simp⟩
    · rcases ih x h1 with h2 | ⟨h2, h3⟩
      · exact Or.inl h2
      · exact Or.inr ⟨h2, by simp [List.mem_cons] at h3 ⊢; tauto⟩

theorem noAdjWs_cons_of_head_nonws {x : Char} {l : List Char} (hx : isJsWs x = false)
    (hl : noAdjWs l = true) : noAdjWs (x :: l) = true := by
  cases l with
  | nil => rfl
  | cons y rest =>
    rw [noAdjWs, Bool.and_eq_true]
    exact ⟨by simp [hx], hl⟩

theorem noAdjWs_collapseWs : ∀ s : List Char, noAdjWs (collapseWs s) = true := by
  intro s
  induction s using collapseWs.induct with
  | case1 => rfl
  | case2 c => rw [collapseWs]; rfl
  | case3 c d rest h ih => rw [collapseWs, if_pos h]; exact ih
  | case4 c d rest h ih =>
    rw [collapseWs, if_neg h]
    by_cases hc : isJsWs c = true
    · have hd : isJsWs d = false := by
        by_contra hd'
        exact h (by simp_all)
      rw [collapseWs_cons_nonws rest hd] at ih ⊢
      rw [if_pos hc]
      rw [noAdjWs, Bool.and_eq_true]
      exact ⟨by simp [hd], ih⟩
    · rw [if_neg hc]
      exact noAdjWs_cons_of_head_nonws (by simpa using hc) ih

theorem noAdjWs_tail {c : Char} {l : List Char} (h : noAdjWs (c :: l) = true) :
    noAdjWs l = true := by
  cases l with
  | nil => rfl
  | cons d rest =>
    rw [noAdjWs, Bool.and_eq_true] at h
    exact h.2

theorem collapseWs_eq_self :
    ∀ s : List Char, noAdjWs s = true → (∀ c ∈ s, isJsWs c = true → c = ' ') →
      collapseWs s = s := by
  intro s
  induction s using collapseWs.induct with
  | case1 => intro _ _; rfl
  | case2 c =>
    intro _ hws
    rw [collapseWs]
    by_cases h : isJsWs c = true
    · rw [if_pos h, hws c (by simp) h]
    · rw [if_neg h]
  | case3 c d rest h ih =>
    intro hadj _
    rw [noAdjWs, Bool.and_eq_true] at hadj
    rw [Bool.and_eq_true] at h
    simp [h.1, h.2] at hadj
  | case4 c d rest h ih =>
    intro hadj hws
    rw [collapseWs, if_neg h]
    have htail := ih (noAdjWs_tail hadj) (fun x hx hwx => hws x (by simp [hx]) hwx)
    rw [htail]
    by_cases hc : isJsWs c = true
    · rw [if_pos hc, hws c (by simp) hc]
    · rw [if_neg hc]

theorem noAdjWs_append_left :
    ∀ (a b : List Char), noAdjWs (a ++ b) = true → noAdjWs a = true
  | [], _, _ => rfl
  | [_], _, _ => rfl
  | x :: y :: rest, b, h => by
    simp only [List.cons_append] at h
    rw [noAdjWs, Bool.and_eq_true] at h ⊢
    exact ⟨h.1, noAdjWs_append_left (y :: rest) b (by simpa using h.2)⟩

theorem noAdjWs_append_right :
    ∀ (a b : List Char), noAdjWs (a ++ b) = true → noAdjWs b = true
  | [], _, h => h
  | x :: rest, b, h => by
    simp only [List.cons_append] at h
    exact noAdjWs_append_right rest b (noAdjWs_tail h)

theorem noAdjWs_concat_nonws :
    ∀ (a : List Char) (x : Char), noAdjWs a = true → isJsWs x = false →
      noAdjWs (a ++ [x]) = true
  | [], x, _, hx => rfl
  | [y], x, _, hx => by
    simp only [List.cons_append, List.nil_append]
    rw [noAdjWs]
    simp [hx, noAdjWs]
  | y :: z :: rest, x, h, hx => by
    rw [noAdjWs, Bool.and_eq_true] at h
    simp only [List.cons_append]
    rw [noAdjWs, Bool.and_eq_true]
    refine ⟨h.1, ?_⟩
    have := noAdjWs_concat_nonws (z :: rest) x h.2 hx
    simpa using this

theorem rtrimWs_suffix_ex : ∀ s : List Char, ∃ t, s = rtrimWs s ++ t
  | [] => ⟨[], rfl⟩
  | c :: rest => by
    obtain ⟨t, ht⟩ := rtrimWs_suffix_ex rest
    by_cases h : ((rtrimWs rest).isEmpty && isJsWs c) = true
    · exact ⟨c :: rest, by rw [rtrimWs]; simp only [h]; rfl⟩
    · refine ⟨t, ?_⟩
      rw [rtrimWs]
      simp only [h]
      simp only [Bool.false_eq_true, if_false, List.cons_append]
      rw [← ht]

theorem jsTrim_suffix_parts (s : List Char) :
    ∃ a b, s = a ++ jsTrim s ++ b := by
  obtain ⟨t, ht⟩ := rtrimWs_suffix_ex (s.dropWhile isJsWs)
  refine ⟨s.takeWhile isJsWs, t, ?_⟩
  conv_lhs => rw [← List.takeWhile_append_dropWhile isJsWs s]
  rw [jsTrim, List.append_assoc, ← ht]

theorem jsTrim_length_le (s : List Char) : (jsTrim s).length ≤ s.length := by
  obtain ⟨a, b, h⟩ := jsTrim_suffix_parts s
  have := congrArg List.length h
  simp only [List.length_append] at this
  omega

theorem jsTrim_mem_subset {s : List Char} : ∀ c ∈ jsTrim s, c ∈ s := by
  intro c hc
  obtain ⟨a, b, h⟩ := jsTrim_suffix_parts s
  rw [h]
  simp [hc]

theorem jsTrim_noAdjWs {s : List Char} (h : noAdjWs s = true) : noAdjWs (jsTrim s) = true := by
  obtain ⟨a, b, heq⟩ := jsTrim_suffix_parts s
  rw [heq] at h
  exact noAdjWs_append_left _ _ (noAdjWs_append_right a _ (by simpa [List.append_assoc] using h))

theorem truncateStep_length (s : List Char) : (truncateStep s).length ≤ 100 := by
  rw [truncateStep]
  by_cases h : 100 < s.length
  · rw [if_pos h]
    have h1 := jsTrim_length_le (s.take 100)
    have h2 : (s.take 100).length ≤ 100 := by
      rw [List.length_take]; omega
    omega
  · rw [if_neg h]; omega

theorem truncateStep_mem_subset {s : List Char} : ∀ c ∈ truncateStep s, c ∈ s := by
  intro c hc
  rw [truncateStep] at hc
  by_cases h : 100 < s.length
  · rw [if_pos h] at hc
    have := jsTrim_mem_subset c hc
    exact List.mem_of_mem_take this
  · rwa [if_neg h] at hc

theorem truncateStep_noAdjWs {s : List Char} (h : noAdjWs s = true) :
    noAdjWs (truncateStep s) = true := by
  rw [truncateStep]
  by_cases hl : 100 < s.length
  · rw [if_pos hl]
    refine jsTrim_noAdjWs ?_
    have := List.take_append_drop 100 s
    exact noAdjWs_append_left _ _ (by rw [this]; exact h)
  · rwa [if_neg hl]

theorem truncateStep_eq_self {s : List Char} (h : s.length ≤ 100) : truncateStep s = s := by
  rw [truncateStep, if_neg (by omega)]

theorem dotStep_eq_self {s : List Char} (h : ¬ s.getLast? = some '.') : dotStep s = s := by
  rw [dotStep, if_neg h]

theorem dotStep_parts {s : List Char} (h : s.getLast? = some '.') :
    s.dropLast ++ ['.'] = s ∧ dotStep s = s.dropLast ++ ['_'] := by
  have hne : s ≠ [] := by
    intro he
    subst he
    simp at h
  constructor
  · have := List.dropLast_append_getLast hne
    have hlast : s.getLast hne = '.' := by
      have := List.getLast?_eq_getLast s hne
      rw [h] at this
      exact (Option.some_injective _ this.symm)
    rw [hlast] at this
    exact this
  · rw [dotStep, if_pos h]

theorem dotStep_mem {s : List Char} : ∀ c ∈ dotStep s, c ∈ s ∨ c = '_' := by
  intro c hc
  rw [dotStep] at hc
  by_cases h : s.getLast? = some '.'
  · rw [if_pos h] at hc
    rcases List.mem_append.mp hc with h1 | h1
    · left
      obtain ⟨hparts, _⟩ := dotStep_parts h
      rw [← hparts]
      simp [h1]
    · right; simpa using h1
  · rw [if_neg h] at hc
    exact Or.inl hc

theorem dotStep_length (s : List Char) : (dotStep s).length ≤ s.length := by
  rw [dotStep]
  by_cases h : s.getLast? = some '.'
  · rw [if_pos h]
    obtain ⟨hparts, _⟩ := dotStep_parts h
    have := congrArg List.length hparts
    simp only [List.length_append, List.length_cons, List.length_nil] at this
    simp only [List.length_append, List.length_cons, List.length_nil]
    omega
  · rw [if_neg h]

theorem dotStep_noAdjWs {s : List Char} (h : noAdjWs s = true) :
    noAdjWs (dotStep s) = true := by
  rw [dotStep]
  by_cases hd : s.getLast? = some '.'
  · rw [if_pos hd]
    obtain ⟨hparts, _⟩ := dotStep_parts hd
    refine noAdjWs_concat_nonws _ _ ?_ (by decide)
    exact noAdjWs_append_left _ _ (by rw [hparts]; exact h)
  · rwa [if_neg hd]

theorem dotStep_no_trailing_dot (s : List Char) : ¬ (dotStep s).getLast? = some '.' := by
  rw [dotStep]
  by_cases h : s.getLast? = some '.'
  · rw [if_pos h, List.getLast?_concat]
    simp
  · rwa [if_neg h]

theorem fallbackStep_eq_self {s : List Char}
    (h : ¬ (s = [] ∨ s = (".mp3".toList) ∨ s = (".zip".toList))) : fallbackStep s = s := by
  rw [fallbackStep, if_neg h]

theorem fallbackStep_good {s : List Char}
    (hall : ∀ c ∈ s, allowedOut c = true) (hadj : noAdjWs s = true)
    (hlen : s.length ≤ 100) (hdot : ¬ s.getLast? = some '.') :
    GoodName (fallbackStep s) = true := by
  rw [fallbackStep]
  by_cases h : s = [] ∨ s = (".mp3".toList) ∨ s = (".zip".toList)
  · rw [if_pos h]
    rcases h with h | h | h <;> subst h <;> decide
  · rw [if_neg h]
    push_neg at h
    rw [GoodName]
    simp only [Bool.and_eq_true, List.all_eq_true, Bool.not_eq_true',
      decide_eq_false_iff_not, decide_eq_true_eq]
    exact ⟨⟨⟨⟨⟨⟨hall, hadj⟩, hlen⟩, hdot⟩, h.1⟩, h.2.1⟩, h.2.2⟩

theorem sanitizeFilename_good (x : List Char) : GoodName (sanitizeFilename x) = true := by
  rw [sanitizeFilename]
  set s1 := replaceBad x with hs1
  set s2 := collapseWs s1 with hs2
  set s3 := truncateStep s2 with hs3
  have h2all : ∀ c ∈ s2, allowedOut c = true := by
    intro c hc
    rcases collapseWs_mem_shape s1 c hc with h | ⟨hws, hmem⟩
    · subst h; decide
    · exact kept_nonws_allowed (replaceBad_all_kept x c hmem) hws
  have h3all : ∀ c ∈ s3, allowedOut c = true :=
    fun c hc => h2all c (truncateStep_mem_subset c hc)
  have h4all : ∀ c ∈ dotStep s3, allowedOut c = true := by
    intro c hc
    rcases dotStep_mem c hc with h | h
    · exact h3all c h
    · subst h; decide
  have h4adj : noAdjWs (dotStep s3) = true :=
    dotStep_noAdjWs (truncateStep_noAdjWs (noAdjWs_collapseWs s1))
  have h4len : (dotStep s3).length ≤ 100 :=
    le_trans (dotStep_length s3) (truncateStep_length s2)
  exact fallbackStep_good h4all h4adj h4len (dotStep_no_trailing_dot s3)

theorem sanitizeFilename_eq_self {s : List Char} (h : GoodName s = true) :
    sanitizeFilename s = s := by
  rw [GoodName] at h
  simp only [Bool.and_eq_true, List.all_eq_true, Bool.not_eq_true',
    decide_eq_false_iff_not, decide_eq_true_eq] at h
  obtain ⟨⟨⟨⟨⟨⟨hall, hadj⟩, hlen⟩, hdot⟩, hne⟩, hmp3⟩, hzip⟩ := h
  rw [sanitizeFilename, replaceBad_eq_self hall,
    collapseWs_eq_self s hadj (fun c hc hw => allowed_ws_space (hall c hc) hw),
    truncateStep_eq_self hlen, dotStep_eq_self hdot,
    fallbackStep_eq_self (by tauto)]

/-- Claim C6: sanitizer safety postcondition — for every input string `x`,
`sanitizeFilename x` contains only characters in `[A-Za-z0-9_.\- ]`
(including space), has length at most 100, does not end in `.`, and is never
empty; the function is total (a Lean `def`) and never errors. -/
theorem claim_C6_sanitizer_safety (x : List Char) :
    (∀ c ∈ sanitizeFilename x, allowedOut c = true) ∧
    (sanitizeFilename x).length ≤ 100 ∧
    ¬ (sanitizeFilename x).getLast? = some '.' ∧
    sanitizeFilename x ≠ [] := by
  have h := sanitizeFilename_good x
  rw [GoodName] at h
  simp only [Bool.and_eq_true, List.all_eq_true, Bool.not_eq_true',
    decide_eq_false_iff_not, decide_eq_true_eq] at h
  exact ⟨h.1.1.1.1.1.1, h.1.1.1.1.2, h.1.1.1.2, h.1.1.2⟩

/-- Closed instance of claim C6 evaluated on a concrete input containing
characters outside the safe alphabet. -/
theorem claim_C6_sanitizer_safety_witness :
    (sanitizeFilename ("a<b>:*?|".toList)).length ≤ 100 ∧
    sanitizeFilename ("a<b>:*?|".toList) ≠ [] :=
  ⟨(claim_C6_sanitizer_safety (("a<b>:*?|").toList)).2.1,
   (claim_C6_sanitizer_safety (("a<b>:*?|").toList)).2.2.2⟩

/-- Claim C7: sanitizer idempotence — `sanitize (sanitize x) = sanitize x`
for every string `x`. -/
theorem claim_C7_sanitizer_idempotent (x : List Char) :
    sanitizeFilename (sanitizeFilename x) = sanitizeFilename x :=
  sanitizeFilename_eq_self (sanitizeFilename_good x)

/-- Counterexample to claim C10 as stated: the input `"."` contains only
allowed characters, has no repeated-whitespace run and has length at most
100, yet `sanitizeFilename "." = "_" ≠ "."` (the trailing-dot branch, not
the truncation branch, rewrites it). -/
theorem claim_C10_counterexample :
    ((".".toList).all allowedOut = true ∧ noAdjWs (".".toList) = true ∧
      (".".toList).length ≤ 100) ∧
    sanitizeFilename (".".toList) ≠ (".".toList) := by
  constructor
  · exact ⟨by decide, by decide, by decide⟩
  · decide

/-- Claim C10 (amended): for every input containing only allowed characters
`[A-Za-z0-9_.\- ]`, with no repeated-whitespace run, of length at most 100,
that moreover does not end in `.` and is not one of the fallback triggers
(empty, `.mp3`, `.zip`), the output equals the input — in particular
surrounding whitespace is NOT trimmed (`sanitize " a " = " a "`); trimming
happens only in the over-100-characters truncation branch. -/
theorem claim_C10_no_trim_under_100 (x : List Char) (h : GoodName x = true) :
    sanitizeFilename x = x :=
  sanitizeFilename_eq_self h

/-- Witness for the amended claim C10: the sanitizer preserves the leading
and trailing spaces of `" a "`. -/
theorem claim_C10_no_trim_under_100_witness :
    sanitizeFilename ((" a ").toList) = (" a ").toList :=
  claim_C10_no_trim_under_100 ((" a ").toList) (by decide)

theorem runItems_nil_sig_true {env : BatchEnv} {i : Nat} {st : BatchState}
    (h : env.sig (3 * i) = true) :
    runItems env [] i st =
      .cancelled (("Playlist processing cancelled by client before zipping.").toList) st := by
  simp only [runItems, h, if_true]

theorem runItems_nil_sig_false {env : BatchEnv} {i : Nat} {st : BatchState}
    (h : env.sig (3 * i) = false) :
    runItems env [] i st = .completed st := by
  simp only [runItems, h, Bool.false_eq_true, if_false]

theorem runItems_cons_sig_true {env : BatchEnv} {i : Nat} {st : BatchState}
    {item : MediaItem} {rest : List MediaItem} (h : env.sig (3 * i) = true) :
    runItems env (item :: rest) i st =
      .cancelled (("Playlist processing cancelled by client during item iteration.").toList) st := by
  simp only [runItems, h, if_true]

theorem runItems_cons_success {env : BatchEnv} {i : Nat} {st : BatchState}
    {item : MediaItem} {rest : List MediaItem} {data : List Nat}
    (hsig : env.sig (3 * i) = false) (hout : env.outcome i = .success data) :
    runItems env (item :: rest) i st =
      runItems env rest (i + 1)
        ⟨zipFile st.entries (audioName item.title) (.audio i data), st.started ++ [i]⟩ := by
  simp only [runItems, hsig, Bool.false_eq_true, if_false, hout]

theorem runItems_cons_failure_err {env : BatchEnv} {i : Nat} {st : BatchState}
    {item : MediaItem} {rest : List MediaItem} {err : JsError}
    (hsig : env.sig (3 * i) = false) (hout : env.outcome i = .failure err)
    (hclass : ((err.name == (("AbortError").toList)) || containsCancel err.message
      || env.sig (3 * i + 1)) = false) :
    runItems env (item :: rest) i st =
      runItems env rest (i + 1)
        ⟨zipFile st.entries (errorName item.title) (.errMark i err.message),
         st.started ++ [i]⟩ := by
  simp only [runItems, hsig, Bool.false_eq_true, if_false, hout, hclass]

theorem runItems_cons_failure_cancel_rethrow {env : BatchEnv} {i : Nat} {st : BatchState}
    {item : MediaItem} {rest : List MediaItem} {err : JsError}
    (hsig : env.sig (3 * i) = false) (hout : env.outcome i = .failure err)
    (hclass : ((err.name == (("AbortError").toList)) || containsCancel err.message
      || env.sig (3 * i + 1)) = true)
    (hre : env.sig (3 * i + 2) = true) :
    runItems env (item :: rest) i st =
      .cancelled ((("Playlist processing cancelled by client: ").toList) ++ err.message)
        ⟨zipFile st.entries (cancelName item.title) (.cancelMark i), st.started ++ [i]⟩ := by
  simp only [runItems, hsig, Bool.false_eq_true, if_false, hout, hclass, if_true, hre]

theorem runItems_cons_failure_cancel_continue {env : BatchEnv} {i : Nat} {st : BatchState}
    {item : MediaItem} {rest : List MediaItem} {err : JsError}
    (hsig : env.sig (3 * i) = false) (hout : env.outcome i = .failure err)
    (hclass : ((err.name == (("AbortError").toList)) || containsCancel err.message
      || env.sig (3 * i + 1)) = true)
    (hre : env.sig (3 * i + 2) = false) :
    runItems env (item :: rest) i st =
      runItems env rest (i + 1)
        ⟨zipFile st.entries (cancelName item.title) (.cancelMark i), st.started ++ [i]⟩ := by
  simp only [runItems, hsig, Bool.false_eq_true, if_false, hout, hclass, if_true, hre]

/-- Claim C1: batch partial-failure isolation — in a 3-item playlist run that
is never cancelled, where item 2 (index 1) fails with an error that is not a
cancellation (e.g. `NoSuitableFormat`: its `name` is not `AbortError` and its
message does not contain `cancel`) and the other items succeed, the loop
completes, records the failure as an `ERROR_` marker, continues with the next
item, and the produced archive has exactly 2 succeeded entries, 1 failure
marker, and 3 entries in total. -/
theorem claim_C1_batch_isolation (env : BatchEnv) (i0 i1 i2 : MediaItem)
    (d0 d2 : List Nat) (e1 : JsError)
    (hsig : ∀ t, env.sig t = false)
    (h0 : env.outcome 0 = .success d0)
    (h1 : env.outcome 1 = .failure e1)
    (h2 : env.outcome 2 = .success d2)
    (hname : (e1.name == (("AbortError").toList)) = false)
    (hmsg : containsCancel e1.message = false)
    (hn01 : (audioName i0.title == errorName i1.title) = false)
    (hn02 : (audioName i0.title == audioName i2.title) = false)
    (hn12 : (errorName i1.title == audioName i2.title) = false) :
    runItems env [i0, i1, i2] 0 ⟨[], []⟩ =
      .completed ⟨[(audioName i0.title, .audio 0 d0),
                   (errorName i1.title, .errMark 1 e1.message),
                   (audioName i2.title, .audio 2 d2)], [0, 1, 2]⟩ ∧
    succeededCount [(audioName i0.title, .audio 0 d0),
                    (errorName i1.title, .errMark 1 e1.message),
                    (audioName i2.title, .audio 2 d2)] = 2 ∧
    failedCount [(audioName i0.title, .audio 0 d0),
                 (errorName i1.title, .errMark 1 e1.message),
                 (audioName i2.title, .audio 2 d2)] = 1 ∧
    ([(audioName i0.title, ZipContent.audio 0 d0),
      (errorName i1.title, ZipContent.errMark 1 e1.message),
      (audioName i2.title, ZipContent.audio 2 d2)] : Zip).length = 3 := by
  refine ⟨?_, by simp [succeededCount, isAudioEntry], by simp [failedCount, isErrEntry], rfl⟩
  rw [runItems_cons_success (hsig 0) h0,
    runItems_cons_failure_err (hsig 3) h1
      (by simp only [hname, hmsg, hsig, Bool.or_self, Bool.or_false, Bool.false_or]),
    runItems_cons_success (hsig 6) h2,
    runItems_nil_sig_false (hsig 9)]
  simp only [zipFile, List.any_nil, Bool.false_eq_true, if_false, List.nil_append,
    List.any_cons, hn01, hn02, hn12, Bool.or_self, Bool.or_false, List.cons_append]

/-- Closed instance of claim C1 with titles `A`, `B`, `C` and item 2 failing
with the `NoSuitableFormat` error message. -/
theorem claim_C1_batch_isolation_witness :
    runItems
      ⟨fun i => if i = 1 then
          .failure ⟨(("Error").toList),
            (("No suitable video format found for \"B\".").toList)⟩
        else .success [i],
       fun _ => false⟩
      [⟨(("u0").toList), (("A").toList)⟩, ⟨(("u1").toList), (("B").toList)⟩,
       ⟨(("u2").toList), (("C").toList)⟩] 0 ⟨[], []⟩ =
      .completed ⟨[(audioName (("A").toList), .audio 0 [0]),
                   (errorName (("B").toList),
                    .errMark 1 (("No suitable video format found for \"B\".").toList)),
                   (audioName (("C").toList), .audio 2 [2])], [0, 1, 2]⟩ :=
  (claim_C1_batch_isolation
    ⟨fun i => if i = 1 then
        .failure ⟨(("Error").toList),
          (("No suitable video format found for \"B\".").toList)⟩
      else .success [i],
     fun _ => false⟩
    ⟨(("u0").toList), (("A").toList)⟩ ⟨(("u1").toList), (("B").toList)⟩
    ⟨(("u2").toList), (("C").toList)⟩ [0] [2]
    ⟨(("Error").toList), (("No suitable video format found for \"B\".").toList)⟩
    (fun _ => rfl) (by decide) (by decide) (by decide) (by decide) (by decide)
    (by decide) (by decide) (by decide)).1

theorem zipFile_idx_lt {z : Zip} {k : Nat} (hz : ∀ e ∈ z, e.2.idx < k)
    {c : ZipContent} (hc : c.idx < k) (name : List Char) :
    ∀ e ∈ zipFile z name c, e.2.idx < k := by
  intro e he
  rw [zipFile] at he
  by_cases h : z.any (fun e => e.1 == name) = true
  · rw [if_pos h] at he
    rw [List.mem_map] at he
    obtain ⟨a, ha, rfl⟩ := he
    by_cases h2 : (a.1 == name) = true
    · rw [if_pos h2]; exact hc
    · rw [if_neg h2]; exact hz a ha
  · rw [if_neg h] at he
    rcases List.mem_append.mp he with h1 | h1
    · exact hz e h1
    · rw [List.mem_singleton] at h1
      subst h1
      exact hc

theorem started_append_lt {l : List Nat} {k i : Nat} (hl : ∀ j ∈ l, j < k) (hi : i < k) :
    ∀ j ∈ l ++ [i], j < k := by
  intro j hj
  rcases List.mem_append.mp hj with h | h
  · exact hl j h
  · rw [List.mem_singleton] at h
    subst h
    exact hi

theorem runItems_abort_bound (env : BatchEnv) (hmono : SigMono env.sig) (k : Nat)
    (hk : env.sig (3 * k) = true) :
    ∀ (items : List MediaItem) (i : Nat) (st : BatchState),
      (∀ j ∈ st.started, j < k) → (∀ e ∈ st.entries, e.2.idx < k) →
      k < i + items.length →
      ∃ msg st', runItems env items i st = .cancelled msg st' ∧
        (∀ j ∈ st'.started, j < k) ∧ (∀ e ∈ st'.entries, e.2.idx < k) := by
  intro items
  induction items with
  | nil =>
    intro i st hs he hlen
    have hsi : env.sig (3 * i) = true :=
      hmono (3 * k) (3 * i) (by simp only [List.length_nil] at hlen; omega) hk
    exact ⟨_, st, runItems_nil_sig_true hsi, hs, he⟩
  | cons item rest ih =>
    intro i st hs he hlen
    rcases hsig : env.sig (3 * i) with _ | _
    · have hik : i < k := by
        by_contra hik
        have := hmono (3 * k) (3 * i) (by omega) hk
        rw [hsig] at this
        exact Bool.false_ne_true this
      rcases hout : env.outcome i with data | err
      · obtain ⟨msg, st', heq, h1, h2⟩ :=
          ih (i + 1) ⟨zipFile st.entries (audioName item.title) (.audio i data),
            st.started ++ [i]⟩
            (started_append_lt hs hik)
            (zipFile_idx_lt he (show (ZipContent.audio i data).idx < k from hik) _)
            (by simp only [List.length_cons] at hlen; omega)
        exact ⟨msg, st', by rw [runItems_cons_success hsig hout]; exact heq, h1, h2⟩
      · rcases hclass : ((err.name == (("AbortError").toList)) || containsCancel err.message
          || env.sig (3 * i + 1)) with _ | _
        · obtain ⟨msg, st', heq, h1, h2⟩ :=
            ih (i + 1) ⟨zipFile st.entries (errorName item.title) (.errMark i err.message),
              st.started ++ [i]⟩
              (started_append_lt hs hik)
              (zipFile_idx_lt he (show (ZipContent.errMark i err.message).idx < k from hik) _)
              (by simp only [List.length_cons] at hlen; omega)
          exact ⟨msg, st',
            by rw [runItems_cons_failure_err hsig hout hclass]; exact heq, h1, h2⟩
        · rcases hre : env.sig (3 * i + 2) with _ | _
          · obtain ⟨msg, st', heq, h1, h2⟩ :=
              ih (i + 1) ⟨zipFile st.entries (cancelName item.title) (.cancelMark i),
                st.started ++ [i]⟩
                (started_append_lt hs hik)
                (zipFile_idx_lt he (show (ZipContent.cancelMark i).idx < k from hik) _)
                (by simp only [List.length_cons] at hlen; omega)
            exact ⟨msg, st',
              by rw [runItems_cons_failure_cancel_continue hsig hout hclass hre]; exact heq,
              h1, h2⟩
          · exact ⟨_, _, runItems_cons_failure_cancel_rethrow hsig hout hclass hre,
              started_append_lt hs hik,
              zipFile_idx_lt he (show (ZipContent.cancelMark i).idx < k from hik) _⟩
    · exact ⟨_, st, runItems_cons_sig_true hsig, hs, he⟩

/-- Claim C2: cancellation is terminal — if the one-way cancellation signal
(`SigMono`) is observed aborted at the top-of-loop poll before item `k` of a
playlist longer than `k`, the loop exits by throwing a cancellation: every
item whose processing was started has index below `k`, no archive entry
(audio, `ERROR_` marker or `CANCELLED_` marker) originates from an item of
index `k` or later — so no item not yet started at the cancellation point
ever produces a succeeded outcome, and the remaining items are not marked
as failed. -/
theorem claim_C2_cancellation_terminal (env : BatchEnv) (items : List MediaItem) (k : Nat)
    (hmono : SigMono env.sig) (hk : env.sig (3 * k) = true) (hlen : k < items.length) :
    ∃ msg st, runItems env items 0 ⟨[], []⟩ = .cancelled msg st ∧
      (∀ j ∈ st.started, j < k) ∧
      (∀ e ∈ st.entries, e.2.idx < k) :=
  runItems_abort_bound env hmono k hk items 0 ⟨[], []⟩
    (by intro j hj; simp at hj) (by intro e he; simp at he) (by omega)

/-- Closed instance of claim C2: a signal aborted from the start cancels a
one-item batch before the item is started. -/
theorem claim_C2_cancellation_terminal_witness :
    ∃ msg st,
      runItems ⟨fun _ => .success [], fun _ => true⟩
        [⟨(("u0").toList), (("A").toList)⟩] 0 ⟨[], []⟩ = .cancelled msg st ∧
      (∀ j ∈ st.started, j < 0) ∧
      (∀ e ∈ st.entries, e.2.idx < 0) :=
  claim_C2_cancellation_terminal ⟨fun _ => .success [], fun _ => true⟩
    [⟨(("u0").toList), (("A").toList)⟩] 0 (fun _ _ _ h => h) rfl (by decide)

/-- Counterexample to claim C8 as stated: two succeeded items both titled
`A` map to the same archive name `A.mp3`; JSZip keys files by name, so the
second item's bytes overwrite the first entry in place — the archive ends up
with a single entry holding item 1's data, and item 0's entry is lost
instead of being disambiguated. -/
theorem claim_C8_counterexample :
    runItems ⟨fun i => if i = 0 then .success [0] else .success [1], fun _ => false⟩
      [⟨(("u0").toList), (("A").toList)⟩, ⟨(("u1").toList), (("A").toList)⟩] 0 ⟨[], []⟩ =
      .completed ⟨[(audioName (("A").toList), .audio 1 [1])], [0, 1]⟩ ∧
    ¬ (audioName (("A").toList), ZipContent.audio 0 [0]) ∈
        ([(audioName (("A").toList), ZipContent.audio 1 [1])] : Zip) := by
  constructor
  · decide
  · decide

/-- Claim C8 (amended): the Archive Builder adds every succeeded item under
its sanitized name, and on a name collision it does NOT create a distinct
entry — deterministically, the later content overwrites the entry with that
name in place (JSZip key semantics), leaving the archive length unchanged;
a fresh name is appended at the end. -/
theorem claim_C8_collision_overwrites (z : Zip) (name : List Char) (c : ZipContent) :
    (z.any (fun e => e.1 == name) = true →
      (zipFile z name c).length = z.length ∧ (name, c) ∈ zipFile z name c) ∧
    (z.any (fun e => e.1 == name) = false →
      zipFile z name c = z ++ [(name, c)]) := by
  constructor
  · intro h
    constructor
    · rw [zipFile, if_pos h, List.length_map]
    · rw [zipFile, if_pos h]
      rw [List.any_eq_true] at h
      obtain ⟨a, ha, hba⟩ := h
      rw [List.mem_map]
      exact ⟨a, ha, by rw [if_pos hba]⟩
  · intro h
    rw [zipFile, if_neg (by simp [h])]

/-- Closed instance of the amended claim C8: overwriting an existing name
keeps the archive length at 1 and stores the new content; adding a fresh
name appends. -/
theorem claim_C8_collision_overwrites_witness :
    ((zipFile [((("A.mp3").toList), ZipContent.audio 0 [0])] ((("A.mp3").toList))
        (ZipContent.audio 1 [1])).length = 1 ∧
      ((("A.mp3").toList), ZipContent.audio 1 [1]) ∈
        zipFile [((("A.mp3").toList), ZipContent.audio 0 [0])] ((("A.mp3").toList))
          (ZipContent.audio 1 [1])) ∧
    zipFile [((("A.mp3").toList), ZipContent.audio 0 [0])] ((("B.mp3").toList))
        (ZipContent.audio 1 [1]) =
      [((("A.mp3").toList), ZipContent.audio 0 [0]), ((("B.mp3").toList), ZipContent.audio 1 [1])] :=
  ⟨(claim_C8_collision_overwrites [((("A.mp3").toList), ZipContent.audio 0 [0])]
      ((("A.mp3").toList)) (ZipContent.audio 1 [1])).1 (by decide),
   (claim_C8_collision_overwrites [((("A.mp3").toList), ZipContent.audio 0 [0])]
      ((("B.mp3").toList)) (ZipContent.audio 1 [1])).2 (by decide)⟩

/-- Claim C4: live-stream short-circuit — in a run that is not already
cancelled, whenever the resolved metadata reports `isLiveContent = true`,
the single-item pipeline fails with the live-stream-unsupported error
directly after the metadata call: the download is never started and the
transcoder (ffmpeg) is never invoked, and the failure is returned as a
terminal error with no retry (the effect trace is exactly the one metadata
call). -/
theorem claim_C4_live_short_circuit (env : ConvertEnv)
    (youtubeUrl title tempDir : List Char)
    (info : VideoInfo) (hsig : env.sig 0 = false)
    (hinfo : env.getInfo = .ok info) (hlive : info.isLiveContent = true) :
    downloadAndConvertToMp3 env youtubeUrl title tempDir =
      (.error ⟨(("Error").toList), liveStreamMsg title⟩, [.getInfoCall]) ∧
    ConvEffect.downloadStart ∉ (downloadAndConvertToMp3 env youtubeUrl title tempDir).2 ∧
    ConvEffect.ffmpegStart ∉ (downloadAndConvertToMp3 env youtubeUrl title tempDir).2 := by
  have h : downloadAndConvertToMp3 env youtubeUrl title tempDir =
      (.error ⟨(("Error").toList), liveStreamMsg title⟩, [.getInfoCall]) := by
    rw [downloadAndConvertToMp3, if_neg (by simp [hsig]), hinfo]
    simp only [hlive, if_true]
  refine ⟨h, ?_, ?_⟩ <;> rw [h] <;> simp

/-- Closed instance of claim C4: a live video with title `Live` fails with
the live-stream error and performs only the metadata call. -/
theorem claim_C4_live_short_circuit_witness :
    downloadAndConvertToMp3
      ⟨fun _ => false, .ok ⟨(("Live").toList), true, []⟩, .ok (), .ok (), (("0").toList)⟩
      (("https://y/live").toList) (("Live").toList) (("/tmp/yt").toList) =
      (.error ⟨(("Error").toList), liveStreamMsg (("Live").toList)⟩, [.getInfoCall]) :=
  (claim_C4_live_short_circuit
    ⟨fun _ => false, .ok ⟨(("Live").toList), true, []⟩, .ok (), .ok (), (("0").toList)⟩
    (("https://y/live").toList) (("Live").toList) (("/tmp/yt").toList)
    ⟨(("Live").toList), true, []⟩ rfl rfl rfl).1

theorem runCleanupHook_done : ∀ evs, runCleanupHook evs true = 0 := by
  intro evs
  induction evs with
  | nil => rfl
  | cons e rest ih => cases e <;> simpa [runCleanupHook] using ih

theorem runCleanupHook_le_one : ∀ evs, runCleanupHook evs false ≤ 1 := by
  intro evs
  induction evs with
  | nil => simp [runCleanupHook]
  | cons e rest ih =>
    cases e
    · simp [runCleanupHook, runCleanupHook_done]
    · simp [runCleanupHook, runCleanupHook_done]
    · simpa [runCleanupHook] using ih

theorem runCleanupHook_fires :
    ∀ evs, (StreamEvent.closeEv ∈ evs ∨ StreamEvent.errorEv ∈ evs) →
      runCleanupHook evs false = 1 := by
  intro evs h
  induction evs with
  | nil => simp at h
  | cons e rest ih =>
    cases e
    · simp [runCleanupHook, runCleanupHook_done]
    · simp [runCleanupHook, runCleanupHook_done]
    · have h2 : StreamEvent.closeEv ∈ rest ∨ StreamEvent.errorEv ∈ rest := by
        rcases h with h | h
        · rcases List.mem_cons.mp h with h1 | h1
          · exact absurd h1 (by decide)
          · exact Or.inl h1
        · rcases List.mem_cons.mp h with h1 | h1
          · exact absurd h1 (by decide)
          · exact Or.inr h1
      simpa [runCleanupHook] using ih h2

/-- Claim C3: temp-workspace cleanup is guaranteed and single-fire — the
`finally` block schedules the delayed removal of the temp workspace on every
terminal outcome of the action (any environment, any arguments), and the
cleanup hook attached to the stream's terminal events runs at most once even
if several terminal events fire — exactly once as soon as some terminal
(`close`/`error`) event fires. -/
theorem claim_C3_cleanup_guaranteed :
    (∀ env args,
      ActionEffect.scheduleRemoveTempDir 5000 ∈ (downloadAudioAction env args).2) ∧
    (∀ evs, runCleanupHook evs false ≤ 1) ∧
    (∀ evs, (StreamEvent.closeEv ∈ evs ∨ StreamEvent.errorEv ∈ evs) →
      runCleanupHook evs false = 1) :=
  ⟨fun env args => by rw [downloadAudioAction]; simp,
   runCleanupHook_le_one, runCleanupHook_fires⟩

/-- Closed instance of claim C3: repeated terminal events run the cleanup
exactly once, and a concrete action run schedules the delayed removal. -/
theorem claim_C3_cleanup_guaranteed_witness :
    runCleanupHook [StreamEvent.errorEv, StreamEvent.closeEv, StreamEvent.closeEv] false = 1 ∧
    ActionEffect.scheduleRemoveTempDir 5000 ∈
      (downloadAudioAction fixtureEnvC9 fixtureArgsEmptyPlaylist).2 :=
  ⟨claim_C3_cleanup_guaranteed.2.2
      [StreamEvent.errorEv, StreamEvent.closeEv, StreamEvent.closeEv] (by decide),
   claim_C3_cleanup_guaranteed.1 fixtureEnvC9 fixtureArgsEmptyPlaylist⟩

/-- Counterexample to claim C5 as stated: the code percent-encodes the
filename (`encodeURIComponent`), so for the title `Test Song` the
`Content-Disposition` header carries `filename="Test%20Song.mp3"`, not
`filename="Test Song.mp3"`. -/
theorem claim_C5_counterexample :
    (downloadAudioAction fixtureEnvC5 fixtureArgsSingle).1 =
      .response (singleHeaders (("Test Song").toList) 7)
        (.fileStream (mp3PathOf (("/tmp/yt").toList) (("Test Song").toList)
          (("1").toList))) ∧
    ¬ (singleHeaders (("Test Song").toList) 7).contentDisposition =
        (("attachment; filename=\"Test Song.mp3\"").toList) ∧
    (singleHeaders (("Test Song").toList) 7).contentDisposition =
      (("attachment; filename=\"Test%20Song.mp3\"").toList) := by
  refine ⟨by decide, by decide, by decide⟩

/-- Claim C5 (amended): for a resolvable non-live single video the action
returns a byte-stream response whose `Content-Type` is `audio/mpeg` and
whose `Content-Disposition` filename is the `encodeURIComponent` encoding of
the sanitized title plus `.mp3` (for the title `Test Song` this is
`Test%20Song.mp3`, which percent-decodes to `Test Song.mp3`). -/
theorem claim_C5_single_headers (env : ActionEnv) (args : ActionArgs)
    (info : VideoInfo) (p : List Char)
    (hguard : playlistGuard args = false)
    (hurl : env.validUrl = true)
    (hinfo : env.getInfo = .ok info)
    (hlive : info.isLiveContent = false)
    (hsig : env.sigBeforeProcessing = false)
    (hconv : (downloadAndConvertToMp3 env.convert args.youtubeUrl info.title
      env.tempDir).1 = .ok p) :
    (downloadAudioAction env args).1 =
      .response (singleHeaders info.title env.statSize) (.fileStream p) ∧
    (singleHeaders info.title env.statSize).contentType = (("audio/mpeg").toList) ∧
    (singleHeaders info.title env.statSize).contentDisposition =
      (("attachment; filename=\"").toList)
        ++ encodeURIComponent (sanitizeFilename info.title ++ ((".mp3").toList))
        ++ (("\"").toList) := by
  have hb : runBody env args =
      .ok (.response (singleHeaders info.title env.statSize) (.fileStream p)) := by
    rw [runBody, if_neg (by simp [hguard]), if_neg (by simp [hurl]), hinfo]
    simp only [hlive, Bool.false_eq_true, if_false, hsig, hconv]
  exact ⟨by rw [downloadAudioAction, hb], rfl, rfl⟩

/-- Closed instance of the amended claim C5 at the title `Test Song`. -/
theorem claim_C5_single_headers_witness :
    (downloadAudioAction fixtureEnvC5 fixtureArgsSingle).1 =
      .response (singleHeaders (("Test Song").toList) 7)
        (.fileStream (mp3PathOf (("/tmp/yt").toList) (("Test Song").toList)
          (("1").toList))) ∧
    (singleHeaders (("Test Song").toList) 7).contentType = (("audio/mpeg").toList) :=
  ⟨(claim_C5_single_headers fixtureEnvC5 fixtureArgsSingle
      ⟨(("Test Song").toList), false, [⟨true, true, (("mp4").toList)⟩]⟩
      (mp3PathOf (("/tmp/yt").toList) (("Test Song").toList) (("1").toList))
      rfl rfl rfl rfl rfl rfl).1,
   (claim_C5_single_headers fixtureEnvC5 fixtureArgsSingle
      ⟨(("Test Song").toList), false, [⟨true, true, (("mp4").toList)⟩]⟩
      (mp3PathOf (("/tmp/yt").toList) (("Test Song").toList) (("1").toList))
      rfl rfl rfl rfl rfl rfl).2.1⟩

/-- Counterexample to claim C9 as stated: a call declaring a playlist with
an empty item list and an invalid URL is not rejected as an empty playlist —
it falls through to the single-video branch and fails URL validation — and
the temp directory is created (`mkdtemp`) although the input is invalid. -/
theorem claim_C9_counterexample :
    fixtureArgsEmptyPlaylist.isPlaylist = true ∧
    fixtureArgsEmptyPlaylist.playlistItems = some [] ∧
    (downloadAudioAction fixtureEnvC9 fixtureArgsEmptyPlaylist).1 =
      .errorResult (("Invalid YouTube URL provided for single video.").toList) ∧
    ActionEffect.mkdtemp ∈ (downloadAudioAction fixtureEnvC9 fixtureArgsEmptyPlaylist).2 := by
  refine ⟨rfl, rfl, by decide, by decide⟩

/-- Claim C9 (amended): a call that is not a nonempty-playlist call and
whose URL fails validation is rejected with the invalid-URL input error —
but only after the per-request temp directory has been created: the effect
trace of every such call is `mkdtemp` followed by the scheduled removal.
An empty playlist is never rejected as an empty playlist; it takes the
single-video path. -/
theorem claim_C9_alloc_before_validation (env : ActionEnv) (args : ActionArgs)
    (hguard : playlistGuard args = false) (hurl : env.validUrl = false) :
    (downloadAudioAction env args).1 =
      .errorResult (("Invalid YouTube URL provided for single video.").toList) ∧
    (downloadAudioAction env args).2 =
      [.mkdtemp, .scheduleRemoveTempDir 5000] := by
  have hb : runBody env args =
      .ok (.errorResult (("Invalid YouTube URL provided for single video.").toList)) := by
    rw [runBody, if_neg (by simp [hguard]), if_pos hurl]
  exact ⟨by rw [downloadAudioAction, hb], by rw [downloadAudioAction]⟩

/-- Closed instance of the amended claim C9 at the empty-playlist call. -/
theorem claim_C9_alloc_before_validation_witness :
    (downloadAudioAction fixtureEnvC9 fixtureArgsEmptyPlaylist).1 =
      .errorResult (("Invalid YouTube URL provided for single video.").toList) ∧
    (downloadAudioAction fixtureEnvC9 fixtureArgsEmptyPlaylist).2 =
      [.mkdtemp, .scheduleRemoveTempDir 5000] :=
  claim_C9_alloc_before_validation fixtureEnvC9 fixtureArgsEmptyPlaylist
    (by decide) rfl

end Studio
